import Mathlib

/-!
Verification of the FitTracker backend (backend/main.py) against its
specification.

Shallow embedding notes:
* The three SQLAlchemy tables become Lean structures `ExerciseDB`,
  `WorkoutProgramDB`, `FinishedWorkoutDB`; the whole store is a `DB` value.
  SQLite integer autoincrement primary keys are modelled by the counters
  `nextProgId` / `nextWorkoutId` (rows carry `id < counter`).
* The `Text` columns `programs.exercises` and
  `finished_workouts.exercises_done` hold `json.dumps` output in the source.
  Since `json.loads (json.dumps v) = v` for JSON values, the column is
  modelled as the JSON value itself (`Json` below); `json.dumps` becomes the
  identity embedding and `json.loads` always succeeds, while the subsequent
  shape checks (`Exercise(**ex)`, iteration, `"; ".join`) are modelled
  faithfully as `Option`-valued decoders.  All integers in this program are
  Python ints, so JSON numbers are modelled as `Int`.
* `datetime` values are modelled by `DTime` (year/month/day/hour/minute,
  the components `strftime` prints); the SQL `ORDER BY finished_at DESC` is
  modelled by insertion sort under the decreasing lexicographic order.
* Each handler is a pure function; a raised `HTTPException` becomes
  `Except.error`.  An exception escaping a handler (only possible on
  malformed stored blobs) is FastAPI's 500 response, modelled as
  `Except.error` with status 500.  The f-string details
  `f"Невалидный файл: {e}"` are modelled by their fixed prefix.
* `upload_program` wraps its whole body in `try/except Exception`, so a
  store failure during `db.add`/`db.commit` is caught like a parse failure;
  the boolean `storeOk` argument models whether the store raises.
* Pydantic v1 lax coercions (e.g. numeric strings to int) are not modelled;
  all claims concern canonically-typed payloads, for which validation
  behaves as modelled.
-/

/-- JSON values as stored in the Text blob columns (numbers are ints here). -/
inductive Json where
  | null : Json
  | bool : Bool → Json
  | num : Int → Json
  | str : String → Json
  | arr : List Json → Json
  | obj : List (String × Json) → Json

/-- First-match key lookup in a JSON object's field list (objects produced by
`json.dumps`/`ex.dict()` have unique keys). -/
def Json.lookupKey (fields : List (String × Json)) (key : String) : Option Json :=
  match fields with
  | [] => none
  | (k, v) :: rest => if k == key then some v else Json.lookupKey rest key

/-- Calendar timestamp as far as this program observes it: the components
compared by `ORDER BY finished_at` and printed by
`strftime('%d.%m.%Y %H:%M')`. -/
structure DTime where
  year : Nat
  month : Nat
  day : Nat
  hour : Nat
  minute : Nat
deriving DecidableEq

/-- Chronological (lexicographic) order on timestamps. -/
def DTime.le (a b : DTime) : Prop :=
  a.year < b.year ∨ (a.year = b.year ∧
    (a.month < b.month ∨ (a.month = b.month ∧
      (a.day < b.day ∨ (a.day = b.day ∧
        (a.hour < b.hour ∨ (a.hour = b.hour ∧ a.minute ≤ b.minute)))))))

instance : ∀ a b : DTime, Decidable (DTime.le a b) := fun a b => by
  unfold DTime.le
  exact inferInstance

/-- Row of the `exercises` table (class `ExerciseDB`). -/
structure ExerciseDB where
  id : Int
  name : String
  tip : Option String
  yt_search : Option String
  sets : Int
  reps : Int
  weight : Int
deriving DecidableEq

/-- Row of the `programs` table (class `WorkoutProgramDB`);
`exercises` is the JSON blob column. -/
structure WorkoutProgramDB where
  id : Int
  title : String
  exercises : Json

/-- Row of the `finished_workouts` table (class `FinishedWorkoutDB`);
`exercises_done` is the JSON blob column. -/
structure FinishedWorkoutDB where
  id : Int
  finished_at : DTime
  duration_sec : Int
  exercises_done : Json

/-- The relational store: the three tables plus the autoincrement state. -/
structure DB where
  exercises : List ExerciseDB
  programs : List WorkoutProgramDB
  finished_workouts : List FinishedWorkoutDB
  nextProgId : Int
  nextWorkoutId : Int

/-- A freshly created store (empty tables, autoincrement ids start at 1). -/
def emptyDB : DB :=
  { exercises := [], programs := [], finished_workouts := [],
    nextProgId := 1, nextWorkoutId := 1 }

/-- Pydantic model `Exercise`. -/
structure Exercise where
  id : Int
  name : String
  tip : Option String := none
  yt_search : Option String := none
  sets : Int := 1
  reps : Int := 1
  weight : Int := 0
deriving DecidableEq

/-- Pydantic model `WorkoutProgram`. -/
structure WorkoutProgram where
  id : Option Int := none
  title : String
  exercises : List Exercise
deriving DecidableEq

/-- Pydantic model `FinishedWorkout`. -/
structure FinishedWorkout where
  id : Int
  finished_at : DTime
  duration_sec : Int
  exercises_done : List String
deriving DecidableEq

/-- `raise HTTPException(status_code=..., detail=...)`. -/
structure HTTPException where
  status_code : Nat
  detail : String
deriving DecidableEq

def notFoundExerciseDetail : String := "Упражнение не найдено"
def notFoundProgDetail : String := "Программа не найдена"
def emptyHistoryDetail : String := "История пуста"
def invalidFileDetail : String := "Невалидный файл: "
def internalErrorDetail : String := "Internal Server Error"

/-- Sequence an optional-valued list: `none` as soon as one element is
`none` (a raised exception inside a list comprehension / loop). -/
def traverseOpt : List (Option α) → Option (List α)
  | [] => some []
  | none :: _ => none
  | some x :: rest => (traverseOpt rest).map (fun ys => x :: ys)

/-- `ex.dict()` value of an optional-string field (None becomes JSON null). -/
def optStrJson : Option String → Json
  | none => Json.null
  | some s => Json.str s

/-- `ex.dict()` as serialized by `json.dumps` (all seven fields, in pydantic
field order). -/
def Exercise.toJson (ex : Exercise) : Json :=
  Json.obj [("id", Json.num ex.id), ("name", Json.str ex.name),
            ("tip", optStrJson ex.tip), ("yt_search", optStrJson ex.yt_search),
            ("sets", Json.num ex.sets), ("reps", Json.num ex.reps),
            ("weight", Json.num ex.weight)]

/-- Required int field of a pydantic payload. -/
def reqInt (fields : List (String × Json)) (key : String) : Option Int :=
  match Json.lookupKey fields key with
  | some (Json.num n) => some n
  | _ => none

/-- Required str field of a pydantic payload. -/
def reqStr (fields : List (String × Json)) (key : String) : Option String :=
  match Json.lookupKey fields key with
  | some (Json.str s) => some s
  | _ => none

/-- `Optional[str] = None` field: absent or null both give `None`. -/
def optStrField (fields : List (String × Json)) (key : String) :
    Option (Option String) :=
  match Json.lookupKey fields key with
  | none => some none
  | some Json.null => some none
  | some (Json.str s) => some (some s)
  | _ => none

/-- `Optional[int] = None` field. -/
def optIntField (fields : List (String × Json)) (key : String) :
    Option (Option Int) :=
  match Json.lookupKey fields key with
  | none => some none
  | some Json.null => some none
  | some (Json.num n) => some (some n)
  | _ => none

/-- `int = d` field with default. -/
def intFieldD (fields : List (String × Json)) (key : String) (d : Int) :
    Option Int :=
  match Json.lookupKey fields key with
  | none => some d
  | some (Json.num n) => some n
  | _ => none

/-- `Exercise(**ex)`: pydantic validation of one exercise object. -/
def Exercise.fromJson : Json → Option Exercise
  | Json.obj fields =>
    (reqInt fields ("id")).bind fun i =>
    (reqStr fields ("name")).bind fun n =>
    (optStrField fields ("tip")).bind fun t =>
    (optStrField fields ("yt_search")).bind fun y =>
    (intFieldD fields ("sets") 1).bind fun s =>
    (intFieldD fields ("reps") 1).bind fun r =>
    (intFieldD fields ("weight") 0).bind fun w =>
    some { id := i, name := n, tip := t, yt_search := y,
           sets := s, reps := r, weight := w }
  | _ => none

/-- `WorkoutProgram.parse_raw(content)`: JSON-decode plus schema validation
(the JSON-text parse itself is the identity at the `Json` level). -/
def WorkoutProgram.parse : Json → Option WorkoutProgram
  | Json.obj fields =>
    (optIntField fields ("id")).bind fun i =>
    (reqStr fields ("title")).bind fun t =>
    (match Json.lookupKey fields ("exercises") with
     | some (Json.arr js) => traverseOpt (js.map Exercise.fromJson)
     | _ => none).bind fun exs =>
    some { id := i, title := t, exercises := exs }
  | _ => none

/-- `json.dumps(exercises)` for a list of names. -/
def encodeStringList (l : List String) : Json :=
  Json.arr (l.map Json.str)

def asStr : Json → Option String
  | Json.str s => some s
  | _ => none

/-- `json.loads` of the `exercises_done` blob followed by the uses it gets
(`list[str]` validation, `"; ".join`): must be an array of strings. -/
def decodeStringList : Json → Option (List String)
  | Json.arr js => traverseOpt (js.map asStr)
  | _ => none

/-- `json.dumps([ex.dict() for ex in exs])`. -/
def encodeExerciseList (exs : List Exercise) : Json :=
  Json.arr (exs.map Exercise.toJson)

/-- `[Exercise(**ex) for ex in json.loads(blob)]`. -/
def decodeExerciseList : Json → Option (List Exercise)
  | Json.arr js => traverseOpt (js.map Exercise.fromJson)
  | _ => none

/-- `len(json.loads(blob))`: Python `len` is defined on lists, dicts and
strings; on other JSON values the handler would raise. -/
def jsonLen : Json → Option Nat
  | Json.arr js => some js.length
  | Json.obj fs => some fs.length
  | Json.str s => some s.length
  | _ => none

/-- Descending order on workout rows used by
`order_by(FinishedWorkoutDB.finished_at.desc())`. -/
def workoutDesc (a b : FinishedWorkoutDB) : Prop :=
  DTime.le b.finished_at a.finished_at

instance : DecidableRel workoutDesc := fun a b => by
  unfold workoutDesc
  exact inferInstance

instance : IsTotal FinishedWorkoutDB workoutDesc :=
  ⟨fun a b => by unfold workoutDesc DTime.le; omega⟩

instance : IsTrans FinishedWorkoutDB workoutDesc :=
  ⟨fun a b c hab hbc => by
    unfold workoutDesc DTime.le at *
    omega⟩

/-- `SELECT ... ORDER BY finished_at DESC`, modelled as a stable sort. -/
def sortByFinishedAtDesc (l : List FinishedWorkoutDB) : List FinishedWorkoutDB :=
  List.insertionSort workoutDesc l

-- ---------- handlers ----------

/-- The seed rows inserted by `init_db` into an empty `exercises` table. -/
def seedExercises : List ExerciseDB :=
  [{ id := 1, name := "Жим лёжа", tip := some ("Сведи лопатки, ступни на полу"),
     yt_search := some ("жим лёжа shorts техника"), sets := 4, reps := 8, weight := 60 },
   { id := 2, name := "Приседания", tip := some ("Колени не выходят за носки"),
     yt_search := some ("приседания shorts техника"), sets := 4, reps := 12, weight := 0 }]

/-- `init_db`: seed the exercises table when `SELECT ... LIMIT 1` finds no
row (schema creation itself has no observable effect in this model). -/
def init_db (db : DB) : DB :=
  match db.exercises.head? with
  | none => { db with exercises := db.exercises ++ seedExercises }
  | some _ => db

/-- `Exercise(**row.__dict__)`. -/
def rowToExercise (row : ExerciseDB) : Exercise :=
  { id := row.id, name := row.name, tip := row.tip, yt_search := row.yt_search,
    sets := row.sets, reps := row.reps, weight := row.weight }

/-- GET /exercises/\x7bexercise_id\x7d. -/
def get_exercise (exercise_id : Int) (db : DB) : Except HTTPException Exercise :=
  match db.exercises.find? (fun r => r.id == exercise_id) with
  | none => Except.error { status_code := 404, detail := notFoundExerciseDetail }
  | some row => Except.ok (rowToExercise row)

/-- GET /exercises. -/
def list_exercises (db : DB) : List Exercise :=
  db.exercises.map rowToExercise

/-- Response of POST /workouts/finish. -/
structure FinishResponse where
  ok : Bool
  workout_id : Int
deriving DecidableEq

/-- POST /workouts/finish: insert a row (`finished_at` defaults to the
current time, passed here as `now`) and return the fresh id. -/
def finish_workout (duration : Int) (exercises : List String) (now : DTime)
    (db : DB) : FinishResponse × DB :=
  let finished : FinishedWorkoutDB :=
    { id := db.nextWorkoutId, finished_at := now, duration_sec := duration,
      exercises_done := encodeStringList exercises }
  ({ ok := true, workout_id := finished.id },
   { db with finished_workouts := db.finished_workouts ++ [finished],
             nextWorkoutId := db.nextWorkoutId + 1 })

/-- Decode one history row into the response model `FinishedWorkout`. -/
def decodeWorkout (w : FinishedWorkoutDB) : Option FinishedWorkout :=
  (decodeStringList w.exercises_done).map (fun names =>
    { id := w.id, finished_at := w.finished_at, duration_sec := w.duration_sec,
      exercises_done := names })

/-- Total variant of `decodeWorkout`, used to state what `get_history`
returns on well-formed rows. -/
def decodeWorkoutD (w : FinishedWorkoutDB) : FinishedWorkout :=
  { id := w.id, finished_at := w.finished_at, duration_sec := w.duration_sec,
    exercises_done := (decodeStringList w.exercises_done).getD [] }

/-- GET /workouts/history: rows newest first, each JSON-decoded; a decode
failure is an uncaught exception, i.e. a 500. -/
def get_history (db : DB) : Except HTTPException (List FinishedWorkout) :=
  match traverseOpt ((sortByFinishedAtDesc db.finished_workouts).map decodeWorkout) with
  | none => Except.error { status_code := 500, detail := internalErrorDetail }
  | some l => Except.ok l

/-- Response of POST /upload-program. -/
structure UploadResponse where
  id : Int
  title : String
  ex_count : Nat
deriving DecidableEq

/-- POST /upload-program.  The whole body runs inside
`try ... except Exception: raise HTTPException(400, ...)`, so a parse or
validation failure AND a store failure (`storeOk = false`, i.e.
`db.add`/`db.commit` raising) all become the same 400 response. -/
def upload_program (storeOk : Bool) (content : Json) (db : DB) :
    Except HTTPException UploadResponse × DB :=
  match WorkoutProgram.parse content with
  | none => (Except.error { status_code := 400, detail := invalidFileDetail }, db)
  | some data =>
    if storeOk then
      let prog : WorkoutProgramDB :=
        { id := db.nextProgId, title := data.title,
          exercises := encodeExerciseList data.exercises }
      (Except.ok { id := prog.id, title := prog.title,
                   ex_count := data.exercises.length },
       { db with programs := db.programs ++ [prog],
                 nextProgId := db.nextProgId + 1 })
    else (Except.error { status_code := 400, detail := invalidFileDetail }, db)

/-- Summary row of GET /programs. -/
structure ProgramSummary where
  id : Int
  title : String
  ex_count : Nat
deriving DecidableEq

/-- GET /programs: `len(json.loads(p.exercises))` per row; a decode/len
failure is an uncaught exception, i.e. a 500. -/
def list_programs (db : DB) : Except HTTPException (List ProgramSummary) :=
  match traverseOpt (db.programs.map (fun p =>
      (jsonLen p.exercises).map (fun n =>
        ({ id := p.id, title := p.title, ex_count := n } : ProgramSummary)))) with
  | none => Except.error { status_code := 500, detail := internalErrorDetail }
  | some l => Except.ok l

/-- GET /programs/\x7bprog_id\x7d. -/
def get_program (prog_id : Int) (db : DB) : Except HTTPException WorkoutProgram :=
  match db.programs.find? (fun r => r.id == prog_id) with
  | none => Except.error { status_code := 404, detail := notFoundProgDetail }
  | some row =>
    match decodeExerciseList row.exercises with
    | none => Except.error { status_code := 500, detail := internalErrorDetail }
    | some exs => Except.ok { id := some row.id, title := row.title, exercises := exs }

/-- Response of DELETE /programs/\x7bprog_id\x7d. -/
structure DeleteResponse where
  ok : Bool
  deleted_title : String
deriving DecidableEq

/-- DELETE /programs/\x7bprog_id\x7d: `db.delete(row)` removes the row the
filter found (the first match). -/
def delete_program (prog_id : Int) (db : DB) :
    Except HTTPException DeleteResponse × DB :=
  match db.programs.find? (fun r => r.id == prog_id) with
  | none => (Except.error { status_code := 404, detail := notFoundProgDetail }, db)
  | some row =>
    (Except.ok { ok := true, deleted_title := row.title },
     { db with programs := db.programs.eraseP (fun r => r.id == prog_id) })

/-- Response of PUT /programs/\x7bprog_id\x7d. -/
structure UpdateResponse where
  ok : Bool
  updated_title : String
deriving DecidableEq

/-- In-place mutation of the first row matching `p` (the object the filter
found). -/
def replaceFirst (p : α → Bool) (f : α → α) : List α → List α
  | [] => []
  | x :: xs => if p x then f x :: xs else x :: replaceFirst p f xs

/-- PUT /programs/\x7bprog_id\x7d: overwrite title and exercises blob of the
found row. -/
def update_program (prog_id : Int) (updated : WorkoutProgram) (db : DB) :
    Except HTTPException UpdateResponse × DB :=
  match db.programs.find? (fun r => r.id == prog_id) with
  | none => (Except.error { status_code := 404, detail := notFoundProgDetail }, db)
  | some _ =>
    let newPrograms :=
      replaceFirst (fun r => r.id == prog_id)
        (fun r => { r with title := updated.title,
                           exercises := encodeExerciseList updated.exercises })
        db.programs
    (Except.ok { ok := true, updated_title := updated.title },
     { db with programs := newPrograms })

-- ---------- CSV export ----------

/-- Python `csv` needs quoting (QUOTE_MINIMAL) when the field contains the
delimiter, the quote char, or a line-terminator character. -/
def csvNeedsQuote (s : String) : Bool :=
  s.data.any (fun c => c == ',' || c == '"' || c == '\r' || c == '\n')

/-- Double every quote character (csv quoting). -/
def csvEscapeChars : List Char → List Char
  | [] => []
  | c :: cs =>
    if c == '"' then '"' :: '"' :: csvEscapeChars cs
    else c :: csvEscapeChars cs

/-- One CSV field, quoted exactly when Python's writer would quote it. -/
def csvField (s : String) : String :=
  if csvNeedsQuote s then "\"" ++ String.mk (csvEscapeChars s.data) ++ "\""
  else s

/-- `writer.writerow(fields)`: comma-joined fields terminated by CRLF. -/
def csvRow (fields : List String) : String :=
  String.intercalate (",") (fields.map csvField) ++ "\r\n"

/-- Concatenation of already-formatted CSV rows. -/
def concatRows : List (List String) → String
  | [] => ""
  | f :: rest => csvRow f ++ concatRows rest

/-- `strftime` zero-padded two-digit component. -/
def pad2 (n : Nat) : String :=
  if n < 10 then "0" ++ toString n else toString n

/-- `strftime('%Y')` zero-pads the year to four digits. -/
def pad4 (n : Nat) : String :=
  if n < 10 then "000" ++ toString n
  else if n < 100 then "00" ++ toString n
  else if n < 1000 then "0" ++ toString n
  else toString n

/-- `w.finished_at.strftime('%d.%m.%Y %H:%M')`. -/
def DTime.strftimeDMYHM (t : DTime) : String :=
  pad2 t.day ++ "." ++ pad2 t.month ++ "." ++ pad4 t.year ++ " " ++
  pad2 t.hour ++ ":" ++ pad2 t.minute

/-- The header row written by export_history (the source writes the Russian
words, not their English translations). -/
def exportHeader : List String := ["Дата", "Длительность (сек)", "Упражнения"]

/-- The three fields of one data row of the export (date, duration,
"; "-joined names); `none` when the blob does not decode to strings. -/
def exportRowFields (w : FinishedWorkoutDB) : Option (List String) :=
  (decodeStringList w.exercises_done).map (fun names =>
    [DTime.strftimeDMYHM w.finished_at, toString w.duration_sec,
     String.intercalate ("; ") names])

/-- Total variant of `exportRowFields` for stating results on well-formed
rows. -/
def exportRowFieldsD (w : FinishedWorkoutDB) : List String :=
  [DTime.strftimeDMYHM w.finished_at, toString w.duration_sec,
   String.intercalate ("; ") ((decodeStringList w.exercises_done).getD [])]

/-- GET /export-history: 404 on empty history, else header row plus one row
per workout, newest first, accumulated into one string; a decode failure is
an uncaught exception, i.e. a 500. -/
def export_history (db : DB) : Except HTTPException String :=
  if (sortByFinishedAtDesc db.finished_workouts).isEmpty then
    Except.error { status_code := 404, detail := emptyHistoryDetail }
  else
    match traverseOpt ((sortByFinishedAtDesc db.finished_workouts).map exportRowFields) with
    | none => Except.error { status_code := 500, detail := internalErrorDetail }
    | some rows =>
      Except.ok (rows.foldl (fun acc f => acc ++ csvRow f) (csvRow exportHeader))

/-- The route table of the FastAPI app: every (method, path) pair the source
registers a handler for. -/
def routes : List (String × String) :=
  [("GET", "/"),
   ("GET", "/exercises"),
   ("GET", "/exercises/\x7bexercise_id\x7d"),
   ("POST", "/workouts/finish"),
   ("GET", "/workouts/history"),
   ("POST", "/upload-program"),
   ("GET", "/programs"),
   ("GET", "/programs/\x7bprog_id\x7d"),
   ("DELETE", "/programs/\x7bprog_id\x7d"),
   ("PUT", "/programs/\x7bprog_id\x7d"),
   ("GET", "/export-history")]

/-- Every blob column reachable through the API decodes: a program row holds
a JSON array of schema-valid exercise objects, a workout row holds a JSON
array of strings. -/
def StoreInv (db : DB) : Prop :=
  (∀ r ∈ db.programs, (decodeExerciseList r.exercises).isSome = true) ∧
  (∀ r ∈ db.finished_workouts, (decodeStringList r.exercises_done).isSome = true)

/-- A sample valid upload payload (a concrete program with one exercise). -/
def sampleProgramJson : Json :=
  Json.obj [("title", Json.str ("Моя программа")),
            ("exercises", Json.arr [Json.obj [("id", Json.num 7),
                                              ("name", Json.str ("Жим лёжа"))]])]

/-- The pydantic value `sampleProgramJson` parses to. -/
def sampleProgram : WorkoutProgram :=
  { id := none, title := "Моя программа",
    exercises := [{ id := 7, name := "Жим лёжа" }] }

/-- An upload payload whose only exercise supplies `name` but omits the
`id` field. -/
def noIdProgramJson : Json :=
  Json.obj [("title", Json.str ("Моя программа")),
            ("exercises", Json.arr [Json.obj [("name", Json.str ("Жим лёжа"))]])]

/-- One finished-workout row (finished 2 Jan 2024 03:04, 60 s, exercise list
`["A"]`). -/
def sampleWorkoutRow : FinishedWorkoutDB :=
  { id := 1,
    finished_at := { year := 2024, month := 1, day := 2, hour := 3, minute := 4 },
    duration_sec := 60, exercises_done := encodeStringList [("A")] }

/-- A store holding exactly one finished workout. -/
def oneWorkoutDB : DB :=
  { exercises := [], programs := [], finished_workouts := [sampleWorkoutRow],
    nextProgId := 1, nextWorkoutId := 2 }

/-- One stored program row (id 1, empty exercise list). -/
def sampleProgramRow : WorkoutProgramDB :=
  { id := 1, title := "Грудь", exercises := encodeExerciseList [] }

/-- A store holding exactly one program, the next program id being 2. -/
def oneProgramDB : DB :=
  { exercises := [], programs := [sampleProgramRow], finished_workouts := [],
    nextProgId := 2, nextWorkoutId := 1 }

/-- The first seeded exercise row. -/
def seedRow1 : ExerciseDB :=
  { id := 1, name := "Жим лёжа", tip := some ("Сведи лопатки, ступни на полу"),
    yt_search := some ("жим лёжа shorts техника"), sets := 4, reps := 8,
    weight := 60 }

/-- Field list of an exercise payload supplying `id`, `name` and an
arbitrary subset of the optional fields. -/
def exerciseFieldsJson (i : Int) (n : String) (tip yt : Option String)
    (sets reps weight : Option Int) : List (String × Json) :=
  [("id", Json.num i), ("name", Json.str n)]
  ++ (match tip with | none => [] | some s => [(("tip"), Json.str s)])
  ++ (match yt with | none => [] | some s => [(("yt_search"), Json.str s)])
  ++ (match sets with | none => [] | some v => [(("sets"), Json.num v)])
  ++ (match reps with | none => [] | some v => [(("reps"), Json.num v)])
  ++ (match weight with | none => [] | some v => [(("weight"), Json.num v)])

/-- A single-exercise program payload around a given exercise object. -/
def progJsonOf (t : String) (ex : Json) : Json :=
  Json.obj [("title", Json.str t), ("exercises", Json.arr [ex])]

/-- A concrete timestamp used as "now" in witnesses. -/
def sampleInstant : DTime :=
  { year := 2024, month := 5, day := 1, hour := 10, minute := 0 }

/-- The row `upload_program` inserts for a parsed payload `wp`. -/
def uploadedRow (db : DB) (wp : WorkoutProgram) : WorkoutProgramDB :=
  { id := db.nextProgId, title := wp.title,
    exercises := encodeExerciseList wp.exercises }

/-- The row `finish_workout` inserts. -/
def finishedRow (db : DB) (duration : Int) (exercises : List String)
    (now : DTime) : FinishedWorkoutDB :=
  { id := db.nextWorkoutId, finished_at := now, duration_sec := duration,
    exercises_done := encodeStringList exercises }

/-- States of the store reachable through the API: the seeded initial store
plus any sequence of mutating handler calls. -/
inductive Reach : DB → Prop where
  | start : Reach (init_db emptyDB)
  | upload (storeOk : Bool) (content : Json) (db : DB) :
      Reach db → Reach (upload_program storeOk content db).2
  | update (prog_id : Int) (updated : WorkoutProgram) (db : DB) :
      Reach db → Reach (update_program prog_id updated db).2
  | finish (duration : Int) (exercises : List String) (now : DTime) (db : DB) :
      Reach db → Reach (finish_workout duration exercises now db).2
  | delete (prog_id : Int) (db : DB) :
      Reach db → Reach (delete_program prog_id db).2

-- ---------- general lemmas ----------

theorem traverseOpt_map_eq_some (g : α → Option β) (gD : α → β) :
    ∀ l : List α, (∀ x ∈ l, g x = some (gD x)) →
      traverseOpt (l.map g) = some (l.map gD)
  | [], _ => rfl
  | x :: xs, h => by
    have hx := h x (List.mem_cons_self x xs)
    have hrest := traverseOpt_map_eq_some g gD xs
      (fun y hy => h y (List.mem_cons_of_mem x hy))
    simp [traverseOpt, hx, hrest]

theorem traverseOpt_map_isSome (g : α → Option β) :
    ∀ l : List α, (∀ x ∈ l, (g x).isSome = true) →
      (traverseOpt (l.map g)).isSome = true
  | [], _ => rfl
  | x :: xs, h => by
    obtain ⟨y, hy⟩ := Option.isSome_iff_exists.mp (h x (List.mem_cons_self x xs))
    have hrest := traverseOpt_map_isSome g xs
      (fun z hz => h z (List.mem_cons_of_mem x hz))
    obtain ⟨ys, hys⟩ := Option.isSome_iff_exists.mp hrest
    simp [traverseOpt, hy, hys]

theorem Exercise.fromJson_toJson (ex : Exercise) :
    Exercise.fromJson ex.toJson = some ex := by
  rcases ex with ⟨i, n, t, y, s, r, w⟩
  cases t <;> cases y <;> rfl

theorem decodeExerciseList_encode (exs : List Exercise) :
    decodeExerciseList (encodeExerciseList exs) = some exs := by
  have h := traverseOpt_map_eq_some
    (fun e => Exercise.fromJson e.toJson) (fun e => e) exs
    (fun x _ => Exercise.fromJson_toJson x)
  simpa [decodeExerciseList, encodeExerciseList, List.map_map, Function.comp]
    using h

theorem decodeStringList_encode (l : List String) :
    decodeStringList (encodeStringList l) = some l := by
  have h := traverseOpt_map_eq_some (fun s => asStr (Json.str s)) (fun s => s) l
    (fun x _ => rfl)
  simpa [decodeStringList, encodeStringList, List.map_map, Function.comp]
    using h

theorem find?_key_of_mem {α : Type} (key : α → Int) {l : List α} {r : α}
    (hp : l.Pairwise (fun a b => key a ≠ key b)) (hr : r ∈ l) :
    l.find? (fun x => key x == key r) = some r := by
  induction l with
  | nil => cases hr
  | cons x xs ih =>
    rcases List.mem_cons.mp hr with h | h
    · subst h
      exact List.find?_cons_of_pos _ (beq_self_eq_true _)
    · have hx : key x ≠ key r := (List.pairwise_cons.mp hp).1 r h
      rw [List.find?_cons_of_neg _ (by simp [beq_eq_false_iff_ne.mpr hx])]
      exact ih (List.pairwise_cons.mp hp).2 h

theorem find?_eraseP_key_eq_none {α : Type} (key : α → Int) (pid : Int)
    {l : List α} (hp : l.Pairwise (fun a b => key a ≠ key b)) :
    (l.eraseP (fun x => key x == pid)).find? (fun x => key x == pid) = none := by
  induction l with
  | nil => rfl
  | cons x xs ih =>
    by_cases hx : (key x == pid) = true
    · rw [@List.eraseP_cons_of_pos α x xs (fun y => key y == pid) hx]
      apply List.find?_eq_none.mpr
      intro y hy
      have hkey : key x = pid := beq_iff_eq.mp hx
      have hne : key x ≠ key y := (List.pairwise_cons.mp hp).1 y hy
      simp only [beq_iff_eq]
      intro hcon
      exact hne (by rw [hkey, hcon])
    · rw [@List.eraseP_cons_of_neg α x xs (fun y => key y == pid) hx,
        @List.find?_cons_of_neg α (fun y => key y == pid) x
          (List.eraseP (fun y => key y == pid) xs) hx]
      exact ih (List.pairwise_cons.mp hp).2

theorem mem_replaceFirst {p : α → Bool} {f : α → α} :
    ∀ {l : List α} {x : α}, x ∈ replaceFirst p f l → x ∈ l ∨ ∃ y ∈ l, x = f y := by
  intro l
  induction l with
  | nil => intro x hx; cases hx
  | cons a as ih =>
    intro x hx
    unfold replaceFirst at hx
    by_cases hpa : p a = true
    · rw [if_pos hpa] at hx
      rcases List.mem_cons.mp hx with h | h
      · exact Or.inr ⟨a, List.mem_cons_self a as, h⟩
      · exact Or.inl (List.mem_cons_of_mem a h)
    · rw [if_neg hpa] at hx
      rcases List.mem_cons.mp hx with h | h
      · exact Or.inl (h ▸ List.mem_cons_self a as)
      · rcases ih h with h' | ⟨y, hy, hxy⟩
        · exact Or.inl (List.mem_cons_of_mem a h')
        · exact Or.inr ⟨y, List.mem_cons_of_mem a hy, hxy⟩

theorem foldl_csvRow_eq_concatRows :
    ∀ (rows : List (List String)) (init : String),
      rows.foldl (fun acc f => acc ++ csvRow f) init = init ++ concatRows rows
  | [], init => by simp [concatRows]
  | f :: rest, init => by
    simp [List.foldl, concatRows, foldl_csvRow_eq_concatRows rest,
      String.append_assoc]

-- ---------- the storage invariant and its preservation ----------

theorem storeInv_init : StoreInv (init_db emptyDB) := by
  constructor <;> intro r hr <;> simp [init_db, emptyDB, seedExercises] at hr

theorem storeInv_upload (storeOk : Bool) (content : Json) (db : DB)
    (h : StoreInv db) : StoreInv (upload_program storeOk content db).2 := by
  unfold upload_program
  cases hparse : WorkoutProgram.parse content with
  | none => simpa using h
  | some data =>
    cases storeOk with
    | false => simpa using h
    | true =>
      refine ⟨?_, h.2⟩
      intro r hr
      simp [List.mem_append] at hr
      rcases hr with hr | hr
      · exact h.1 r hr
      · subst hr
        simp [decodeExerciseList_encode]

theorem storeInv_update (prog_id : Int) (updated : WorkoutProgram) (db : DB)
    (h : StoreInv db) : StoreInv (update_program prog_id updated db).2 := by
  unfold update_program
  cases hf : db.programs.find? (fun r => r.id == prog_id) with
  | none => simpa using h
  | some row =>
    refine ⟨?_, h.2⟩
    intro r hr
    simp only at hr
    rcases mem_replaceFirst hr with hmem | ⟨y, _, hxy⟩
    · exact h.1 r hmem
    · subst hxy
      simp [decodeExerciseList_encode]

theorem storeInv_finish (duration : Int) (exercises : List String) (now : DTime)
    (db : DB) (h : StoreInv db) :
    StoreInv (finish_workout duration exercises now db).2 := by
  unfold finish_workout
  refine ⟨h.1, ?_⟩
  intro r hr
  simp [List.mem_append] at hr
  rcases hr with hr | hr
  · exact h.2 r hr
  · subst hr
    simp [decodeStringList_encode]

theorem storeInv_delete (prog_id : Int) (db : DB) (h : StoreInv db) :
    StoreInv (delete_program prog_id db).2 := by
  unfold delete_program
  cases hf : db.programs.find? (fun r => r.id == prog_id) with
  | none => simpa using h
  | some row =>
    refine ⟨?_, h.2⟩
    intro r hr
    simp only at hr
    exact h.1 r (List.mem_of_mem_eraseP hr)

theorem reach_storeInv {db : DB} (h : Reach db) : StoreInv db := by
  induction h with
  | start => exact storeInv_init
  | upload storeOk content db _ ih => exact storeInv_upload storeOk content db ih
  | update prog_id updated db _ ih => exact storeInv_update prog_id updated db ih
  | finish duration exercises now db _ ih =>
    exact storeInv_finish duration exercises now db ih
  | delete prog_id db _ ih => exact storeInv_delete prog_id db ih

-- ---------- handler characterizations on well-formed stores ----------

theorem get_history_eq (db : DB)
    (h : ∀ r ∈ db.finished_workouts,
      (decodeStringList r.exercises_done).isSome = true) :
    get_history db =
      Except.ok ((sortByFinishedAtDesc db.finished_workouts).map decodeWorkoutD) := by
  unfold get_history
  have hmem : ∀ w ∈ sortByFinishedAtDesc db.finished_workouts,
      decodeWorkout w = some (decodeWorkoutD w) := by
    intro w hw
    have hw2 : w ∈ db.finished_workouts := by
      unfold sortByFinishedAtDesc at hw
      exact (List.mem_insertionSort workoutDesc).mp hw
    obtain ⟨names, hn⟩ := Option.isSome_iff_exists.mp (h w hw2)
    simp [decodeWorkout, decodeWorkoutD, hn]
  rw [traverseOpt_map_eq_some decodeWorkout decodeWorkoutD _ hmem]

theorem export_history_eq (db : DB)
    (h : ∀ r ∈ db.finished_workouts,
      (decodeStringList r.exercises_done).isSome = true)
    (hne : db.finished_workouts ≠ []) :
    export_history db =
      Except.ok (csvRow exportHeader ++
        concatRows ((sortByFinishedAtDesc db.finished_workouts).map exportRowFieldsD)) := by
  unfold export_history
  have hs : (sortByFinishedAtDesc db.finished_workouts).isEmpty = false := by
    rw [List.isEmpty_eq_false]
    intro hcon
    have hlen := List.length_insertionSort workoutDesc db.finished_workouts
    unfold sortByFinishedAtDesc at hcon
    rw [hcon] at hlen
    exact hne (List.length_eq_zero.mp hlen.symm)
  have hmem : ∀ w ∈ sortByFinishedAtDesc db.finished_workouts,
      exportRowFields w = some (exportRowFieldsD w) := by
    intro w hw
    have hw2 : w ∈ db.finished_workouts := by
      unfold sortByFinishedAtDesc at hw
      exact (List.mem_insertionSort workoutDesc).mp hw
    obtain ⟨names, hn⟩ := Option.isSome_iff_exists.mp (h w hw2)
    simp [exportRowFields, exportRowFieldsD, hn]
  rw [hs, traverseOpt_map_eq_some exportRowFields exportRowFieldsD _ hmem]
  simp [foldl_csvRow_eq_concatRows]

theorem export_history_empty (db : DB) (he : db.finished_workouts = []) :
    export_history db =
      Except.error { status_code := 404, detail := emptyHistoryDetail } := by
  unfold export_history
  rw [he]
  rfl

-- ---------- specialized find? lemmas ----------

theorem find?_exercise_of_mem {l : List ExerciseDB} {r : ExerciseDB}
    (hp : l.Pairwise (fun a b => a.id ≠ b.id)) (hr : r ∈ l) :
    l.find? (fun x => x.id == r.id) = some r :=
  find?_key_of_mem (fun x => x.id) hp hr

theorem find?_eraseP_prog (pid : Int) {l : List WorkoutProgramDB}
    (hp : l.Pairwise (fun a b => a.id ≠ b.id)) :
    (l.eraseP (fun r => r.id == pid)).find? (fun r => r.id == pid) = none :=
  find?_eraseP_key_eq_none (fun r : WorkoutProgramDB => r.id) pid hp

-- ---------- claims ----------

/-- C7: startup seeding is idempotent.  Against a store whose exercises
table is non-empty `init_db` inserts nothing, so running it twice never
duplicates the seed rows; insertion is guarded exactly by the emptiness
check. -/
theorem c7_seeding_idempotent (db : DB) :
    (db.exercises ≠ [] → init_db db = db) ∧
    init_db (init_db db) = init_db db ∧
    (db.exercises = [] →
      init_db db = { db with exercises := db.exercises ++ seedExercises }) := by
  rcases db with ⟨exs, ps, ws, np, nw⟩
  cases exs with
  | nil => exact ⟨fun h => absurd rfl h, rfl, fun _ => rfl⟩
  | cons e rest => exact ⟨fun _ => rfl, rfl, fun h => absurd h (by simp)⟩

/-- Witness for C7 at the concrete seeded store. -/
theorem c7_witness :
    (init_db emptyDB).exercises ≠ [] ∧
    init_db (init_db emptyDB) = init_db emptyDB :=
  ⟨by decide, (c7_seeding_idempotent (init_db emptyDB)).1 (by decide)⟩

/-- C8 (amended): a store failure inside POST /upload-program is caught by
the handler's blanket `except Exception` and surfaced as a 400 client
error, not a 5xx, even for a schema-valid body. -/
theorem c8_upload_store_failure_400 (content : Json) (wp : WorkoutProgram)
    (db : DB) (hp : WorkoutProgram.parse content = some wp) :
    upload_program false content db =
      (Except.error { status_code := 400, detail := invalidFileDetail }, db) := by
  unfold upload_program
  rw [hp]
  exact rfl

/-- C8 counterexample: a concrete schema-valid upload whose store write
fails is answered with status 400, which is not a 5xx status. -/
theorem c8_counterexample :
    WorkoutProgram.parse sampleProgramJson = some sampleProgram ∧
    (upload_program false sampleProgramJson emptyDB).1 =
      Except.error { status_code := 400, detail := invalidFileDetail } ∧
    ¬ (500 ≤ 400 ∧ (400 : Nat) < 600) :=
  ⟨rfl, rfl, by decide⟩

/-- Witness for C8 at a concrete payload. -/
theorem c8_witness :
    WorkoutProgram.parse sampleProgramJson = some sampleProgram ∧
    upload_program false sampleProgramJson emptyDB =
      (Except.error { status_code := 400, detail := invalidFileDetail }, emptyDB) :=
  ⟨rfl, c8_upload_store_failure_400 sampleProgramJson sampleProgram emptyDB rfl⟩

/-- C9 (amended): the public interface has no creation endpoint for
exercises (the only POST routes are /workouts/finish and /upload-program);
exercises exist only through seeding, and fetching any stored exercise row
by its id returns field-for-field equal data. -/
theorem c9_exercises_read_only (db : DB) (r : ExerciseDB)
    (hp : db.exercises.Pairwise (fun a b => a.id ≠ b.id))
    (hr : r ∈ db.exercises) :
    get_exercise r.id db =
      Except.ok { id := r.id, name := r.name, tip := r.tip,
                  yt_search := r.yt_search, sets := r.sets, reps := r.reps,
                  weight := r.weight } ∧
    (routes.filter (fun p => p.1 == ("POST"))).map (fun p => p.2) =
      [("/workouts/finish"), ("/upload-program")] := by
  refine ⟨?_, rfl⟩
  unfold get_exercise
  rw [find?_exercise_of_mem hp hr]
  exact rfl

/-- C9 counterexample: the route table has no POST endpoint for exercises,
so no "creation operation for exercises in the public interface" exists. -/
theorem c9_counterexample :
    ¬ ((("POST" : String), ("/exercises" : String)) ∈ routes) ∧
    (routes.filter (fun p => p.1 == ("POST"))).map (fun p => p.2) =
      [("/workouts/finish"), ("/upload-program")] :=
  ⟨by decide, rfl⟩

/-- Witness for C9 at the seeded store and the first seed row. -/
theorem c9_witness :
    (init_db emptyDB).exercises.Pairwise (fun a b => a.id ≠ b.id) ∧
    seedRow1 ∈ (init_db emptyDB).exercises ∧
    (get_exercise seedRow1.id (init_db emptyDB) =
        Except.ok { id := seedRow1.id, name := seedRow1.name,
                    tip := seedRow1.tip, yt_search := seedRow1.yt_search,
                    sets := seedRow1.sets, reps := seedRow1.reps,
                    weight := seedRow1.weight } ∧
     (routes.filter (fun p => p.1 == ("POST"))).map (fun p => p.2) =
        [("/workouts/finish"), ("/upload-program")]) :=
  ⟨by decide, by decide,
   c9_exercises_read_only (init_db emptyDB) seedRow1 (by decide) (by decide)⟩

/-- C3 (amended): an uploaded program is accepted when each exercise
supplies the required `id` and `name` fields and any subset of the optional
fields; `tip` and `yt_search` default to absent and omitted `sets`, `reps`,
`weight` take the defaults 1, 1, 0; the program id is assigned by the store
and not required from the client. -/
theorem c3_defaults_and_acceptance (i : Int) (n t : String)
    (tip yt : Option String) (sets reps weight : Option Int) (db : DB) :
    Exercise.fromJson (Json.obj (exerciseFieldsJson i n tip yt sets reps weight)) =
      some { id := i, name := n, tip := tip, yt_search := yt,
             sets := sets.getD 1, reps := reps.getD 1,
             weight := weight.getD 0 } ∧
    (upload_program true
        (progJsonOf t (Json.obj (exerciseFieldsJson i n tip yt sets reps weight)))
        db).1 =
      Except.ok { id := db.nextProgId, title := t, ex_count := 1 } := by
  cases tip <;> cases yt <;> cases sets <;> cases reps <;> cases weight <;>
    exact ⟨rfl, rfl⟩

/-- C3 counterexample: a payload whose exercise supplies only the `name`
field (omitting `id`) is rejected with a 400, because the Exercise schema
also requires `id` from the client. -/
theorem c3_counterexample :
    WorkoutProgram.parse noIdProgramJson = none ∧
    upload_program true noIdProgramJson emptyDB =
      (Except.error { status_code := 400, detail := invalidFileDetail },
       emptyDB) :=
  ⟨rfl, rfl⟩

/-- C2 (amended): for every non-empty history the export body is the header
row `Дата,Длительность (сек),Упражнения` (the source writes the Russian
header, not an English one) followed by one CSV row per finished workout,
newest first, with the date as `%d.%m.%Y %H:%M`, the duration as an
integer, and the exercise names joined with "; " into a single field;
fields are quoted exactly when Python's csv writer would quote them and
rows end with CRLF. -/
theorem c2_export_format (db : DB)
    (h : ∀ r ∈ db.finished_workouts,
      (decodeStringList r.exercises_done).isSome = true)
    (hne : db.finished_workouts ≠ []) :
    ∃ ws : List FinishedWorkoutDB, ws.Perm db.finished_workouts ∧
      List.Sorted workoutDesc ws ∧
      export_history db = Except.ok
        (csvRow [("Дата"), ("Длительность (сек)"), ("Упражнения")] ++
         concatRows (ws.map (fun w =>
           [DTime.strftimeDMYHM w.finished_at, toString w.duration_sec,
            String.intercalate ("; ")
              ((decodeStringList w.exercises_done).getD [])]))) := by
  refine ⟨sortByFinishedAtDesc db.finished_workouts,
    List.perm_insertionSort workoutDesc _,
    List.sorted_insertionSort workoutDesc _, ?_⟩
  exact export_history_eq db h hne

/-- C2 counterexample: on a concrete one-workout history the first row of
the CSV is the Russian header, not `Date, Duration (sec), Exercises` as the
claim states. -/
theorem c2_counterexample :
    export_history oneWorkoutDB =
      Except.ok ("Дата,Длительность (сек),Упражнения\r\n02.01.2024 03:04,60,A\r\n") ∧
    ("Дата,Длительность (сек),Упражнения" : String) ≠
      ("Date, Duration (sec), Exercises") := by
  constructor
  · rw [export_history_eq oneWorkoutDB (by decide) (by exact List.cons_ne_nil _ _)]
    exact congrArg Except.ok (by decide)
  · decide

/-- Witness for C2 at the concrete one-workout store. -/
theorem c2_witness :
    (∀ r ∈ oneWorkoutDB.finished_workouts,
      (decodeStringList r.exercises_done).isSome = true) ∧
    oneWorkoutDB.finished_workouts ≠ [] ∧
    (∃ ws : List FinishedWorkoutDB, ws.Perm oneWorkoutDB.finished_workouts ∧
      List.Sorted workoutDesc ws ∧
      export_history oneWorkoutDB = Except.ok
        (csvRow [("Дата"), ("Длительность (сек)"), ("Упражнения")] ++
         concatRows (ws.map (fun w =>
           [DTime.strftimeDMYHM w.finished_at, toString w.duration_sec,
            String.intercalate ("; ")
              ((decodeStringList w.exercises_done).getD [])])))) :=
  ⟨by decide, List.cons_ne_nil _ _,
   c2_export_format oneWorkoutDB (by decide) (List.cons_ne_nil _ _)⟩

/-- C4: GET /export-history 404s exactly when there are zero finished
workouts; with N ≥ 1 workouts it returns a CSV of exactly N+1 rows (one
header row plus one row per workout), data rows ordered newest-first by
finished_at. -/
theorem c4_export_rowcount (db : DB)
    (h : ∀ r ∈ db.finished_workouts,
      (decodeStringList r.exercises_done).isSome = true) :
    (db.finished_workouts = [] →
      export_history db =
        Except.error { status_code := 404, detail := emptyHistoryDetail }) ∧
    (db.finished_workouts ≠ [] →
      ∃ ws : List FinishedWorkoutDB,
        ws.Perm db.finished_workouts ∧ List.Sorted workoutDesc ws ∧
        (exportHeader :: ws.map exportRowFieldsD).length =
          db.finished_workouts.length + 1 ∧
        export_history db =
          Except.ok (csvRow exportHeader ++
            concatRows (ws.map exportRowFieldsD))) := by
  refine ⟨fun he => export_history_empty db he, fun hne => ?_⟩
  refine ⟨sortByFinishedAtDesc db.finished_workouts,
    List.perm_insertionSort workoutDesc _,
    List.sorted_insertionSort workoutDesc _, ?_,
    export_history_eq db h hne⟩
  simp [sortByFinishedAtDesc, List.length_insertionSort]

/-- Witness for C4 at the concrete one-workout store. -/
theorem c4_witness :
    (∀ r ∈ oneWorkoutDB.finished_workouts,
      (decodeStringList r.exercises_done).isSome = true) ∧
    oneWorkoutDB.finished_workouts ≠ [] ∧
    (∃ ws : List FinishedWorkoutDB,
      ws.Perm oneWorkoutDB.finished_workouts ∧ List.Sorted workoutDesc ws ∧
      (exportHeader :: ws.map exportRowFieldsD).length =
        oneWorkoutDB.finished_workouts.length + 1 ∧
      export_history oneWorkoutDB =
        Except.ok (csvRow exportHeader ++
          concatRows (ws.map exportRowFieldsD))) :=
  ⟨by decide, List.cons_ne_nil _ _,
   (c4_export_rowcount oneWorkoutDB (by decide)).2 (List.cons_ne_nil _ _)⟩

-- ---------- remaining handler equations ----------

theorem upload_program_eq (content : Json) (wp : WorkoutProgram) (db : DB)
    (hp : WorkoutProgram.parse content = some wp) :
    upload_program true content db =
      (Except.ok { id := db.nextProgId, title := wp.title,
                   ex_count := wp.exercises.length },
       { db with programs := db.programs ++ [uploadedRow db wp],
                 nextProgId := db.nextProgId + 1 }) := by
  unfold upload_program
  rw [hp]
  exact rfl

theorem get_program_eq_ok (pid : Int) (db : DB) (row : WorkoutProgramDB)
    (exs : List Exercise)
    (hf : db.programs.find? (fun r => r.id == pid) = some row)
    (hd : decodeExerciseList row.exercises = some exs) :
    get_program pid db =
      Except.ok { id := some row.id, title := row.title, exercises := exs } := by
  simp [get_program, hf, hd]

theorem get_program_eq_error_of_find?_none (pid : Int) (db : DB)
    (h : db.programs.find? (fun r => r.id == pid) = none) :
    get_program pid db =
      Except.error { status_code := 404, detail := notFoundProgDetail } := by
  simp [get_program, h]

theorem jsonLen_isSome_of_decodeExerciseList {j : Json} {exs : List Exercise}
    (h : decodeExerciseList j = some exs) : (jsonLen j).isSome = true := by
  cases j <;> simp_all [decodeExerciseList, jsonLen]

/-- C1: uploading any schema-valid WorkoutProgram payload and fetching the
returned id yields a program with the uploaded title and the identical
exercises sequence (same length, same order, equal name, tip, yt_search,
sets, reps, weight on each element). -/
theorem c1_upload_roundtrip (db : DB) (content : Json) (wp : WorkoutProgram)
    (hid : ∀ r ∈ db.programs, r.id < db.nextProgId)
    (hp : WorkoutProgram.parse content = some wp) :
    (upload_program true content db).1 =
      Except.ok { id := db.nextProgId, title := wp.title,
                  ex_count := wp.exercises.length } ∧
    get_program db.nextProgId (upload_program true content db).2 =
      Except.ok { id := some db.nextProgId, title := wp.title,
                  exercises := wp.exercises } := by
  rw [upload_program_eq content wp db hp]
  refine ⟨rfl, ?_⟩
  refine get_program_eq_ok db.nextProgId _ (uploadedRow db wp)
    wp.exercises ?_ (decodeExerciseList_encode wp.exercises)
  show (db.programs ++ [uploadedRow db wp]).find?
      (fun r => r.id == db.nextProgId) = some (uploadedRow db wp)
  rw [List.find?_append]
  have hnone : db.programs.find? (fun r => r.id == db.nextProgId) = none := by
    apply List.find?_eq_none.mpr
    intro x hx
    have hlt := hid x hx
    simp only [beq_iff_eq]
    omega
  rw [hnone, Option.none_or]
  exact List.find?_cons_of_pos _ (beq_self_eq_true _)

/-- Witness for C1 at the empty store and a concrete payload. -/
theorem c1_witness :
    (∀ r ∈ emptyDB.programs, r.id < emptyDB.nextProgId) ∧
    WorkoutProgram.parse sampleProgramJson = some sampleProgram ∧
    ((upload_program true sampleProgramJson emptyDB).1 =
      Except.ok { id := emptyDB.nextProgId, title := sampleProgram.title,
                  ex_count := sampleProgram.exercises.length } ∧
     get_program emptyDB.nextProgId
        (upload_program true sampleProgramJson emptyDB).2 =
      Except.ok { id := some emptyDB.nextProgId, title := sampleProgram.title,
                  exercises := sampleProgram.exercises }) :=
  ⟨by decide, rfl,
   c1_upload_roundtrip emptyDB sampleProgramJson sampleProgram (by decide) rfl⟩

/-- C6: deleting an existing program answers 200 with the deleted title and
a subsequent fetch of the same id answers 404; deleting an absent id itself
answers 404. -/
theorem c6_delete_then_get (db : DB) (prog_id : Int)
    (hp : db.programs.Pairwise (fun a b => a.id ≠ b.id)) :
    (∀ row, db.programs.find? (fun r => r.id == prog_id) = some row →
      (delete_program prog_id db).1 =
        Except.ok { ok := true, deleted_title := row.title } ∧
      get_program prog_id (delete_program prog_id db).2 =
        Except.error { status_code := 404, detail := notFoundProgDetail }) ∧
    (db.programs.find? (fun r => r.id == prog_id) = none →
      delete_program prog_id db =
        (Except.error { status_code := 404, detail := notFoundProgDetail },
         db)) := by
  constructor
  · intro row hrow
    have h1 : delete_program prog_id db =
        (Except.ok { ok := true, deleted_title := row.title },
         { db with
             programs := db.programs.eraseP (fun r => r.id == prog_id) }) := by
      unfold delete_program
      rw [hrow]
    rw [h1]
    exact ⟨rfl, get_program_eq_error_of_find?_none prog_id _
      (find?_eraseP_prog prog_id hp)⟩
  · intro hnone
    unfold delete_program
    rw [hnone]

/-- Witness for C6 at a concrete one-program store (present id 1, absent
id 2). -/
theorem c6_witness :
    oneProgramDB.programs.Pairwise (fun a b => a.id ≠ b.id) ∧
    oneProgramDB.programs.find? (fun r => r.id == 1) = some sampleProgramRow ∧
    ((delete_program 1 oneProgramDB).1 =
        Except.ok { ok := true, deleted_title := sampleProgramRow.title } ∧
     get_program 1 (delete_program 1 oneProgramDB).2 =
        Except.error { status_code := 404, detail := notFoundProgDetail }) ∧
    (oneProgramDB.programs.find? (fun r => r.id == 2) = none ∧
     delete_program 2 oneProgramDB =
        (Except.error { status_code := 404, detail := notFoundProgDetail },
         oneProgramDB)) :=
  ⟨by decide, rfl,
   (c6_delete_then_get oneProgramDB 1 (by decide)).1 sampleProgramRow rfl,
   rfl, (c6_delete_then_get oneProgramDB 2 (by decide)).2 rfl⟩

/-- C5: finishing a workout returns the fresh id and a subsequent history
read is ordered by finished_at descending and contains a record with that
id, the given duration and exactly the given exercise-name list. -/
theorem c5_finish_then_history (db : DB) (duration : Int)
    (exercises : List String) (now : DTime)
    (h : ∀ r ∈ db.finished_workouts,
      (decodeStringList r.exercises_done).isSome = true) :
    (finish_workout duration exercises now db).1 =
      { ok := true, workout_id := db.nextWorkoutId } ∧
    ∃ hist : List FinishedWorkout,
      get_history (finish_workout duration exercises now db).2 =
        Except.ok hist ∧
      List.Sorted
        (fun a b : FinishedWorkout => DTime.le b.finished_at a.finished_at)
        hist ∧
      ∃ rec ∈ hist, rec.id = db.nextWorkoutId ∧
        rec.duration_sec = duration ∧ rec.exercises_done = exercises := by
  refine ⟨rfl, ?_⟩
  have h2 : ∀ r ∈ (finish_workout duration exercises now db).2.finished_workouts,
      (decodeStringList r.exercises_done).isSome = true := by
    intro r hr
    have hr2 : r ∈ db.finished_workouts ++
        [finishedRow db duration exercises now] := hr
    rcases List.mem_append.mp hr2 with hr3 | hr3
    · exact h r hr3
    · rw [List.mem_singleton] at hr3
      subst hr3
      simp [finishedRow, decodeStringList_encode]
  refine ⟨(sortByFinishedAtDesc
      (finish_workout duration exercises now db).2.finished_workouts).map
        decodeWorkoutD,
    get_history_eq _ h2, ?_, ?_⟩
  · have hs := List.sorted_insertionSort workoutDesc
      ((finish_workout duration exercises now db).2.finished_workouts)
    exact List.Pairwise.map decodeWorkoutD (fun a b hab => hab) hs
  · refine ⟨decodeWorkoutD (finishedRow db duration exercises now),
      ?_, rfl, rfl, ?_⟩
    · apply List.mem_map_of_mem
      unfold sortByFinishedAtDesc
      rw [List.mem_insertionSort]
      exact List.mem_append_right _ (List.mem_singleton.mpr rfl)
    · simp [decodeWorkoutD, finishedRow, decodeStringList_encode]

/-- Witness for C5 at the empty store with a concrete workout. -/
theorem c5_witness :
    (∀ r ∈ emptyDB.finished_workouts,
      (decodeStringList r.exercises_done).isSome = true) ∧
    ((finish_workout 1800 [("Жим лёжа"), ("Приседания")] sampleInstant
        emptyDB).1 =
      { ok := true, workout_id := emptyDB.nextWorkoutId } ∧
     ∃ hist : List FinishedWorkout,
       get_history (finish_workout 1800 [("Жим лёжа"), ("Приседания")]
           sampleInstant emptyDB).2 =
         Except.ok hist ∧
       List.Sorted
         (fun a b : FinishedWorkout => DTime.le b.finished_at a.finished_at)
         hist ∧
       ∃ rec ∈ hist, rec.id = emptyDB.nextWorkoutId ∧
         rec.duration_sec = 1800 ∧
         rec.exercises_done = [("Жим лёжа"), ("Приседания")]) :=
  ⟨by decide,
   c5_finish_then_history emptyDB 1800 [("Жим лёжа"), ("Приседания")]
     sampleInstant (by decide)⟩

/-- C10: every store reachable through the API keeps each program blob a
JSON array of schema-valid exercise objects and each workout blob a JSON
array of strings, so the JSON decoding performed by GET /programs,
GET /programs/id, GET /workouts/history and GET /export-history never
fails on API-created data (reads can only succeed or 404, never 500). -/
theorem c10_blob_invariant (db : DB) (h : Reach db) :
    (∀ r ∈ db.programs, ∃ exs, decodeExerciseList r.exercises = some exs) ∧
    (∀ r ∈ db.finished_workouts,
      ∃ names, decodeStringList r.exercises_done = some names) ∧
    (∃ l, list_programs db = Except.ok l) ∧
    (∀ pid e, get_program pid db = Except.error e → e.status_code = 404) ∧
    (∃ hist, get_history db = Except.ok hist) ∧
    (∀ e, export_history db = Except.error e → e.status_code = 404) := by
  have hinv := reach_storeInv h
  refine ⟨fun r hr => Option.isSome_iff_exists.mp (hinv.1 r hr),
    fun r hr => Option.isSome_iff_exists.mp (hinv.2 r hr), ?_, ?_, ?_, ?_⟩
  · have hs : (traverseOpt (db.programs.map (fun p =>
        (jsonLen p.exercises).map (fun n =>
          ({ id := p.id, title := p.title, ex_count := n } :
            ProgramSummary))))).isSome = true := by
      apply traverseOpt_map_isSome
      intro p hpmem
      obtain ⟨exs, hexs⟩ := Option.isSome_iff_exists.mp (hinv.1 p hpmem)
      obtain ⟨n, hn⟩ := Option.isSome_iff_exists.mp
        (jsonLen_isSome_of_decodeExerciseList hexs)
      simp [hn]
    obtain ⟨l, hl⟩ := Option.isSome_iff_exists.mp hs
    refine ⟨l, ?_⟩
    unfold list_programs
    rw [hl]
  · intro pid e he
    cases hf : db.programs.find? (fun r => r.id == pid) with
    | none =>
      rw [get_program_eq_error_of_find?_none pid db hf] at he
      injection he with h1
      rw [← h1]
    | some row =>
      obtain ⟨exs, hexs⟩ := Option.isSome_iff_exists.mp
        (hinv.1 row (List.mem_of_find?_eq_some hf))
      rw [get_program_eq_ok pid db row exs hf hexs] at he
      simp at he
  · exact ⟨_, get_history_eq db hinv.2⟩
  · intro e he
    by_cases hemp : db.finished_workouts = []
    · rw [export_history_empty db hemp] at he
      injection he with h1
      rw [← h1]
    · rw [export_history_eq db hinv.2 hemp] at he
      simp at he

/-- Witness for C10 at the seeded initial store. -/
theorem c10_witness :
    Reach (init_db emptyDB) ∧
    ((∀ r ∈ (init_db emptyDB).programs,
        ∃ exs, decodeExerciseList r.exercises = some exs) ∧
     (∀ r ∈ (init_db emptyDB).finished_workouts,
        ∃ names, decodeStringList r.exercises_done = some names) ∧
     (∃ l, list_programs (init_db emptyDB) = Except.ok l) ∧
     (∀ pid e, get_program pid (init_db emptyDB) = Except.error e →
        e.status_code = 404) ∧
     (∃ hist, get_history (init_db emptyDB) = Except.ok hist) ∧
     (∀ e, export_history (init_db emptyDB) = Except.error e →
        e.status_code = 404)) :=
  ⟨Reach.start, c10_blob_invariant (init_db emptyDB) Reach.start⟩
